import Mathlib

/-!
Formal model of the interactive CLI assistant implemented in
claude3.45.py, together with proofs of the behavioural properties of its
core components: directive extraction, command execution, conversation
history maintenance, and JSON session persistence.

Strings are modelled by Lean String, character-level scanning by
List Char (the underlying data of a String).  Machine effects
(subprocess execution, the clock, file I/O, the remote model client)
enter the model as explicit parameters; everything the program itself
computes is embedded as executable Lean functions that follow the Python
source line by line.
-/

/-- Whitespace characters stripped by Python str.strip with no argument,
restricted to the ASCII range (the set Python documents as
space, tab, linefeed, return, vertical tab, formfeed; further Unicode
space characters are not exercised by any property here). -/
def pyWhitespace (c : Char) : Bool :=
  c = ' ' || c = '\t' || c = '\n' || c = '\r' || c = '\x0b' || c = '\x0c'

/-- Python str.strip: remove leading and trailing whitespace. -/
def pyStrip (l : List Char) : List Char :=
  ((l.dropWhile pyWhitespace).reverse.dropWhile pyWhitespace).reverse

/-- beginsWith pat s is true when pat occurs at the very start of s. -/
def beginsWith : List Char → List Char → Bool
  | [], _ => true
  | _ :: _, [] => false
  | p :: ps, c :: cs => p = c && beginsWith ps cs

/-- firstIdx pat s is the least index at which pat occurs in s, or none:
the semantics of Python str.index (which raises ValueError on absence). -/
def firstIdx (pat : List Char) : List Char → Option Nat
  | [] => if beginsWith pat [] then some 0 else none
  | c :: t =>
    if beginsWith pat (c :: t) then some 0
    else (firstIdx pat t).map (fun n => n + 1)

/-- pat occurs somewhere in s. -/
def occursIn (pat s : List Char) : Prop :=
  ∃ k, beginsWith pat (s.drop k) = true

/-- The directive start marker [cmd]. -/
def startMarker : List Char := "[cmd]".data

/-- The directive end marker [/cmd]. -/
def endMarker : List Char := "[/cmd]".data

/-- CLIAssistant.extract_command: start = text.index "[cmd]" + 5,
end = text.index "[/cmd]" (searched from the beginning of the whole
text), result text[start:end].strip(); ValueError from either index call
(marker absent) yields None.  A Python slice with start beyond end is
empty, which List.take reproduces through truncated subtraction. -/
def extract_command (text : String) : Option String :=
  match firstIdx startMarker text.data, firstIdx endMarker text.data with
  | some s0, some e0 =>
    some (String.mk (pyStrip ((text.data.drop (s0 + 5)).take (e0 - (s0 + 5)))))
  | _, _ => none

/-- Modelled from the claim wording for comparison with the source: the
end marker is searched only after the first start marker, so the
extracted span is the one between the first start marker and the first
end marker occurring after it. -/
def extract_claimC2 (text : String) : Option String :=
  match firstIdx startMarker text.data with
  | none => none
  | some s0 =>
    match firstIdx endMarker (text.data.drop (s0 + 5)) with
    | none => none
    | some k => some (String.mk (pyStrip ((text.data.drop (s0 + 5)).take k)))

/-- Outcome of the subprocess.run call inside execute_command: normal
completion with captured stdout, stderr and return code; expiry of the
30 second timeout (subprocess.TimeoutExpired, the library kills the
child before raising); or any other exception while launching or
running, carrying str(e). -/
inductive ExecOutcome where
  | completed (stdout stderr : String) (returncode : Int)
  | timedOut
  | failed (msg : String)

/-- The wall-clock budget passed as timeout= to subprocess.run. -/
def command_timeout : Nat := 30

/-- CLIAssistant.execute_command, parameterised by the subprocess
outcome.  An empty command string is falsy in Python, so it is rejected
before any shell is spawned; otherwise output = stdout + stderr and the
returned text follows the source's branch structure exactly. -/
def execute_command (command : String) (outcome : ExecOutcome) : String :=
  if command = "" then "Kein gültiger Befehl gefunden."
  else
    match outcome with
    | .completed stdout stderr rc =>
      let output := stdout ++ stderr
      if output = "" ∧ rc ≠ 0 then
        "Befehl fehlgeschlagen mit Exit-Code " ++ toString rc
      else if output ≠ "" then output
      else "Befehl ausgeführt (keine Ausgabe)"
    | .timedOut => "Befehl wurde wegen Zeitüberschreitung (30s) abgebrochen"
    | .failed e => "Fehler bei der Befehlsausführung: " ++ e

/-- The Message dataclass: a role ("user" or "assistant" as produced by
the loop) and a content string. -/
structure Message where
  role : String
  content : String
deriving DecidableEq, BEq

/-- JSON values as produced by json.load / consumed by json.dump.
Numbers are modelled by Int; the program never writes a fractional
number and no property here depends on one. -/
inductive Json where
  | null
  | bool (b : Bool)
  | num (n : Int)
  | str (s : String)
  | arr (elems : List Json)
  | obj (fields : List (String × Json))

/-- A message as reconstructed by load_conversation.  The Message
constructor performs no runtime type check in Python, so the role and
content slots hold whatever JSON values the file supplied. -/
structure JMessage where
  role : Json
  content : Json

/-- The list comprehension inside save_conversation building the
"conversation" entry: one {"role": …, "content": …} object per
message, in history order. -/
def serialize_history (hist : List Message) : Json :=
  Json.arr (hist.map (fun m =>
    Json.obj [("role", Json.str m.role), ("content", Json.str m.content)]))

/-- The document save_conversation passes to json.dump: the current
ISO-8601 timestamp and the serialized history. -/
def save_data (iso : String) (hist : List Message) : Json :=
  Json.obj [("timestamp", Json.str iso), ("conversation", serialize_history hist)]

/-- The strftime pattern used to derive the save filename from the
current local time. -/
def timestamp_format : String := "%Y%m%d_%H%M%S"

/-- Observable result of a save: the file written (name, JSON document)
together with the json.dump flags and the open() encoding taken directly
from the call site. -/
structure SaveFile where
  filename : String
  data : Json
  ensure_ascii : Bool
  indent : Option Nat
  encoding : String

/-- CLIAssistant.save_conversation, parameterised by the two clock
readings it takes (the strftime-formatted local time and the ISO
timestamp).  It writes conversation_<timestamp>.json and touches no
session state. -/
def save_conversation (strfNow iso : String) (hist : List Message) : SaveFile :=
  ⟨"conversation_" ++ strfNow ++ ".json", save_data iso hist, false, some 2, "utf-8"⟩

/-- Python dict lookup on the fields of a JSON object; KeyError when the
key is absent. -/
def lookupField : List (String × Json) → String → Option Json
  | [], _ => none
  | (k, v) :: rest, key => if k = key then some v else lookupField rest key

/-- Python subscription value[key] with a string key on a JSON-derived
value: succeeds only on a dict holding the key; on a list, string or
scalar it raises TypeError (modelled as none). -/
def getItem (j : Json) (key : String) : Option Json :=
  match j with
  | .obj fields => lookupField fields key
  | _ => none

/-- Python iteration (for msg in conv) over a JSON-derived value: a list
yields its elements, a string yields its one-character substrings, a
dict yields its keys; scalars raise TypeError (none). -/
def iterElems : Json → Option (List Json)
  | .arr xs => some xs
  | .str s => some (s.data.map (fun c => Json.str (String.mk [c])))
  | .obj fields => some (fields.map (fun p => Json.str p.1))
  | _ => none

/-- The extraction inside load_conversation:
[Message(role=msg["role"], content=msg["content"]) for msg in
data["conversation"]].  none exactly when Python raises (missing or
unsubscriptable "conversation", non-iterable conversation value, or an
element without subscriptable "role"/"content"); the whole list is built
before any assignment, so failure is atomic. -/
def parse_msg (msg : Json) : Option JMessage := do
  let r ← getItem msg "role"
  let c ← getItem msg "content"
  pure ⟨r, c⟩

/-- The list comprehension, element by element, left to right; the
first failing element aborts the whole construction, exactly as the
first exception does in Python. -/
def parse_msgs : List Json → Option (List JMessage)
  | [] => some []
  | msg :: rest => do
    let jm ← parse_msg msg
    let tail ← parse_msgs rest
    pure (jm :: tail)

/-- The conversation extraction of load_conversation over the parsed
JSON document; see parse_msg and parse_msgs. -/
def parse_loaded (data : Json) : Option (List JMessage) := do
  let conv ← getItem data "conversation"
  let elems ← iterElems conv
  parse_msgs elems

/-- CLIAssistant.load_conversation: fileData is none when the file is
missing or json.load fails; any exception is caught, leaving the history
untouched and reporting an error (the Bool).  On success the loaded
sequence replaces the history wholesale. -/
def load_conversation (fileData : Option Json) (hist : List JMessage) :
    List JMessage × Bool :=
  match fileData with
  | none => (hist, true)
  | some data =>
    match parse_loaded data with
    | none => (hist, true)
    | some msgs => (msgs, false)

/-- The live history embeds into the persistence view: roles and
contents are carried as JSON strings. -/
def Message.toJ (m : Message) : JMessage :=
  ⟨Json.str m.role, Json.str m.content⟩

/-- The message list CLIAssistant.get_response hands to
client.messages.create: a dict per message of the current history
followed by one more user message built from the user_input argument. -/
def get_response_messages (hist : List Message) (user_input : String) :
    List Message :=
  hist.map (fun m => ⟨m.role, m.content⟩) ++ [⟨"user", user_input⟩]

/-- The conversational-turn tail of CLIAssistant.run, from the first
add_to_history call onward: append the user message, append the model
reply (supplied by the external collaborator), then, when the walrus
test on extract_command yields a truthy (non-None, non-empty) command,
execute it and append the single synthesized user-role message.  The
second component records the directive handed to execute_command, none
when none was executed. -/
def run_turn (hist : List Message) (user_input reply : String)
    (exec : String → String) : List Message × Option String :=
  let hist1 := hist ++ [⟨"user", user_input⟩, ⟨"assistant", reply⟩]
  match extract_command reply with
  | some command =>
    if command = "" then (hist1, none)
    else
      (hist1 ++
        [⟨"user", "Befehl ausgeführt: " ++ command ++ "\nAusgabe: " ++ exec command⟩],
       some command)
  | none => (hist1, none)

/-- What one iteration of the main loop did besides updating the
history. -/
inductive StepAction where
  | noop
  | exited
  | savedFile (f : SaveFile)
  | showedHistory
  | loadRequested (filename : String)
  | turn (sentToApi : List Message) (executed : Option String)

/-- One iteration of the while loop in CLIAssistant.run, parameterised
by the collaborator effects of that iteration: the clock readings, the
model reply, the executor (execute_command applied to that run's
subprocess outcome) and, for the load branch, the result of
load_conversation restricted to the string-typed view (load itself is
modelled separately over JSON).  Branch order and the comparisons
against the raw, unstripped input follow the source. -/
def run_step (hist : List Message) (user_input : String)
    (strfNow iso : String) (reply : String) (exec : String → String)
    (loadResult : Option (List Message)) : List Message × StepAction :=
  if pyStrip user_input.data = [] then (hist, .noop)
  else if user_input = "exit" then (hist, .exited)
  else if user_input = "save" then
    (hist, .savedFile (save_conversation strfNow iso hist))
  else if user_input = "history" then (hist, .showedHistory)
  else if beginsWith "load ".data user_input.data then
    let filename := String.mk (pyStrip (user_input.data.drop 5))
    match loadResult with
    | some msgs => (msgs, .loadRequested filename)
    | none => (hist, .loadRequested filename)
  else
    let r := run_turn hist user_input reply exec
    (r.1, .turn (get_response_messages (hist ++ [⟨"user", user_input⟩]) user_input) r.2)

theorem firstIdx_eq_some_iff (pat : List Char) :
    ∀ (s : List Char) (i : Nat),
      firstIdx pat s = some i ↔
        beginsWith pat (s.drop i) = true ∧
          ∀ k, k < i → beginsWith pat (s.drop k) = false := by
  intro s
  induction s with
  | nil =>
    intro i
    simp only [firstIdx, List.drop_nil]
    by_cases hp : beginsWith pat [] = true
    · rw [if_pos hp]
      constructor
      · intro h
        injection h with h0
        subst h0
        exact ⟨hp, fun k hk => absurd hk (Nat.not_lt_zero k)⟩
      · rintro ⟨-, hall⟩
        cases i with
        | zero => rfl
        | succ n =>
          have h0 := hall 0 (Nat.succ_pos n)
          rw [h0] at hp
          exact absurd hp (by decide)
    · rw [if_neg hp]
      simp only [Bool.not_eq_true] at hp
      simp [hp]
  | cons c t ih =>
    intro i
    simp only [firstIdx]
    by_cases hp : beginsWith pat (c :: t) = true
    · rw [if_pos hp]
      constructor
      · intro h
        injection h with h0
        subst h0
        exact ⟨hp, fun k hk => absurd hk (Nat.not_lt_zero k)⟩
      · rintro ⟨-, hall⟩
        cases i with
        | zero => rfl
        | succ n =>
          have h0 := hall 0 (Nat.succ_pos n)
          rw [List.drop_zero] at h0
          rw [h0] at hp
          exact absurd hp (by decide)
    · rw [if_neg hp]
      simp only [Bool.not_eq_true] at hp
      cases i with
      | zero =>
        simp only [List.drop_zero]
        constructor
        · intro h
          rcases Option.map_eq_some'.mp h with ⟨m, -, hm⟩
          exact absurd hm (by omega)
        · rintro ⟨h0, -⟩
          rw [hp] at h0
          exact absurd h0 (by decide)
      | succ n =>
        constructor
        · intro h
          rcases Option.map_eq_some'.mp h with ⟨m, hm, hmn⟩
          have hm2 : firstIdx pat t = some n := by
            rw [show n = m from by omega]
            exact hm
          rcases (ih n).mp hm2 with ⟨h1, h2⟩
          refine ⟨by simpa using h1, ?_⟩
          intro k hk
          cases k with
          | zero => simpa using hp
          | succ k2 => simpa using h2 k2 (by omega)
        · rintro ⟨h1, h2⟩
          have ht : firstIdx pat t = some n := by
            refine (ih n).mpr ⟨by simpa using h1, ?_⟩
            intro k hk
            have := h2 (k + 1) (by omega)
            simpa using this
          rw [ht]
          rfl

theorem firstIdx_eq_none_iff (pat s : List Char) :
    firstIdx pat s = none ↔ ¬ occursIn pat s := by
  induction s with
  | nil =>
    simp only [firstIdx, occursIn]
    by_cases hp : beginsWith pat [] = true
    · rw [if_pos hp]
      constructor
      · intro h; exact absurd h (by simp)
      · intro h
        exact absurd (⟨0, by simpa using hp⟩ : ∃ k, beginsWith pat (List.drop k []) = true) h
    · rw [if_neg hp]
      simp only [Bool.not_eq_true] at hp
      simp [hp]
  | cons c t ih =>
    simp only [firstIdx]
    by_cases hp : beginsWith pat (c :: t) = true
    · rw [if_pos hp]
      constructor
      · intro h; exact absurd h (by simp)
      · intro h
        exact absurd (⟨0, by simpa using hp⟩ : occursIn pat (c :: t)) h
    · rw [if_neg hp]
      simp only [Bool.not_eq_true] at hp
      rw [Option.map_eq_none', ih]
      unfold occursIn
      constructor
      · rintro h ⟨k, hk⟩
        cases k with
        | zero =>
          rw [List.drop_zero, hp] at hk
          exact absurd hk (by decide)
        | succ k2 => exact h ⟨k2, by simpa using hk⟩
      · rintro h ⟨k, hk⟩
        exact h ⟨k + 1, by simpa using hk⟩

theorem firstIdx_drop (pat s : List Char) (d j : Nat)
    (h : firstIdx pat s = some j) (hd : d ≤ j) :
    firstIdx pat (s.drop d) = some (j - d) := by
  rcases (firstIdx_eq_some_iff pat s j).mp h with ⟨h1, h2⟩
  refine (firstIdx_eq_some_iff pat (s.drop d) (j - d)).mpr ⟨?_, ?_⟩
  · rw [List.drop_drop]
    have heq : d + (j - d) = j := by omega
    rw [heq]
    exact h1
  · intro k hk
    rw [List.drop_drop]
    exact h2 (d + k) (by omega)

theorem occursIn_of_firstIdx_some (pat s : List Char) (i : Nat)
    (h : firstIdx pat s = some i) : occursIn pat s :=
  ⟨i, ((firstIdx_eq_some_iff pat s i).mp h).1⟩

theorem parse_msgs_serialized (hist : List Message) :
    parse_msgs (hist.map (fun m =>
        Json.obj [("role", Json.str m.role), ("content", Json.str m.content)])) =
      some (hist.map Message.toJ) := by
  induction hist with
  | nil => rfl
  | cons m t ih =>
    simp [parse_msgs, ih, parse_msg, getItem, lookupField, Message.toJ]

theorem parse_loaded_save (iso : String) (hist : List Message) :
    parse_loaded (save_data iso hist) = some (hist.map Message.toJ) := by
  unfold parse_loaded save_data serialize_history
  simp [getItem, lookupField, iterElems, parse_msgs_serialized]

/-- C2 (counterexample): the claim fails as stated.  In
"[/cmd][cmd]ls[/cmd]" the first start marker has an end marker after it,
and the trimmed substring between that pair is "ls"
(extract_claimC2, written from the claim), yet extract_command searches
for the end marker from the beginning of the whole text, finds the one
before the start marker, and returns the empty string. -/
theorem C2_counterexample :
    extract_command "[/cmd][cmd]ls[/cmd]" = some "" ∧
    extract_claimC2 "[/cmd][cmd]ls[/cmd]" = some "ls" ∧
    extract_command "[/cmd][cmd]ls[/cmd]" ≠ extract_claimC2 "[/cmd][cmd]ls[/cmd]" := by
  refine ⟨by decide, by decide, by decide⟩

/-- C2 (amended): whenever the first occurrence of the end marker in the
whole text lies at or after the end of the first start marker,
extract_command returns exactly the whitespace-trimmed substring
strictly between them — and in that case it agrees with the
first-end-marker-after-the-start reading of the claim — regardless of
any content or further marker pairs after that end marker. -/
theorem C2_extract_first_pair (text : String) (i j : Nat)
    (hs : firstIdx startMarker text.data = some i)
    (he : firstIdx endMarker text.data = some j)
    (hij : i + 5 ≤ j) :
    extract_command text =
      some (String.mk (pyStrip ((text.data.drop (i + 5)).take (j - (i + 5))))) ∧
    extract_command text = extract_claimC2 text := by
  have hdrop : firstIdx endMarker (text.data.drop (i + 5)) = some (j - (i + 5)) :=
    firstIdx_drop endMarker text.data (i + 5) j he hij
  constructor
  · simp [extract_command, hs, he]
  · simp [extract_command, extract_claimC2, hs, he, hdrop]

/-- C2 (witness): a concrete text on which the amended theorem applies. -/
theorem C2_witness :
    extract_command "run: [cmd] ls [/cmd] done" =
      extract_claimC2 "run: [cmd] ls [/cmd] done" :=
  (C2_extract_first_pair "run: [cmd] ls [/cmd] done" 5 14
    (by decide) (by decide) (by decide)).2

/-- C7: extract_command returns the absence signal none exactly when the
start marker does not occur in the text or the end marker does not occur
in the text (in particular for a dangling start marker); being a total
function into Option String, it signals absence rather than raising. -/
theorem C7_extract_absence (text : String) :
    extract_command text = none ↔
      ¬ occursIn startMarker text.data ∨ ¬ occursIn endMarker text.data := by
  unfold extract_command
  rcases h1 : firstIdx startMarker text.data with _ | i
  · constructor
    · intro _
      exact Or.inl ((firstIdx_eq_none_iff _ _).mp h1)
    · intro _
      rfl
  · rcases h2 : firstIdx endMarker text.data with _ | j
    · constructor
      · intro _
        exact Or.inr ((firstIdx_eq_none_iff _ _).mp h2)
      · intro _
        rfl
    · constructor
      · intro habs
        exact absurd habs (by simp)
      · rintro (h | h)
        · exact absurd (occursIn_of_firstIdx_some _ _ _ h1) h
        · exact absurd (occursIn_of_firstIdx_some _ _ _ h2) h

/-- C5: for a non-empty directive completing within the timeout,
execute_command returns the combined stdout-then-stderr output verbatim
when it is non-empty; the fixed failure text with the exit code when the
output is empty and the exit status non-zero; the fixed
executed-no-output marker when the output is empty and the exit status
zero; and for the empty directive it returns the fixed no-valid-command
result whatever the subprocess outcome (no shell is consulted). -/
theorem C5_execute_outcomes (command stdout stderr : String) (rc : Int)
    (outcome : ExecOutcome) (h : command ≠ "") :
    (stdout ++ stderr ≠ "" →
       execute_command command (.completed stdout stderr rc) = stdout ++ stderr) ∧
    (stdout ++ stderr = "" → rc ≠ 0 →
       execute_command command (.completed stdout stderr rc) =
         "Befehl fehlgeschlagen mit Exit-Code " ++ toString rc) ∧
    (stdout ++ stderr = "" → rc = 0 →
       execute_command command (.completed stdout stderr rc) =
         "Befehl ausgeführt (keine Ausgabe)") ∧
    execute_command "" outcome = "Kein gültiger Befehl gefunden." := by
  refine ⟨?_, ?_, ?_, rfl⟩
  · intro hout
    simp [execute_command, h, hout]
  · intro hout hrc
    simp [execute_command, h, hout, hrc]
  · intro hout hrc
    simp [execute_command, h, hout, hrc]

/-- C5 (witness): a directive with captured output gets it back
verbatim. -/
theorem C5_witness :
    execute_command "ls" (ExecOutcome.completed "datei.txt\n" "" 0) = "datei.txt\n" :=
  (C5_execute_outcomes "ls" "datei.txt\n" "" 0 ExecOutcome.timedOut
    (by decide)).1 (by decide)

/-- C6: execute_command is total over its outcomes — every branch
returns a string.  The budget handed to subprocess.run is 30 seconds; on
expiry (the library terminates the spawned process before raising
TimeoutExpired) the fixed timeout text is returned, and a launch failure
comes back as a textual error result carrying the exception message,
never as a propagated exception. -/
theorem C6_executor_total (command e : String) (outcome : ExecOutcome)
    (h : command ≠ "") :
    command_timeout = 30 ∧
    execute_command command ExecOutcome.timedOut =
      "Befehl wurde wegen Zeitüberschreitung (30s) abgebrochen" ∧
    execute_command command (ExecOutcome.failed e) =
      "Fehler bei der Befehlsausführung: " ++ e ∧
    ∃ s : String, execute_command command outcome = s := by
  refine ⟨rfl, ?_, ?_, ⟨_, rfl⟩⟩ <;> simp [execute_command, h]

/-- C6 (witness): the timeout branch at a concrete directive. -/
theorem C6_witness :
    execute_command "sleep 60" ExecOutcome.timedOut =
      "Befehl wurde wegen Zeitüberschreitung (30s) abgebrochen" :=
  (C6_executor_total "sleep 60" "x" (ExecOutcome.completed "" "" 0)
    (by decide)).2.1

/-- C8: in a conversational turn whose reply yields a truthy directive,
exactly three messages are appended in order — the user input with role
user, the reply with role assistant, and one synthesized user-role
message recording the directive and its execution result; when the
reply yields no directive (or an empty one), exactly the first two are
appended. -/
theorem C8_turn_appends (hist : List Message) (user_input reply : String)
    (exec : String → String) :
    (∀ c, extract_command reply = some c → c ≠ "" →
        (run_turn hist user_input reply exec).1 =
          hist ++ [⟨"user", user_input⟩, ⟨"assistant", reply⟩,
            ⟨"user", "Befehl ausgeführt: " ++ c ++ "\nAusgabe: " ++ exec c⟩]) ∧
    ((extract_command reply = none ∨ extract_command reply = some "") →
        (run_turn hist user_input reply exec).1 =
          hist ++ [⟨"user", user_input⟩, ⟨"assistant", reply⟩]) := by
  constructor
  · intro c hc hne
    simp [run_turn, hc, hne]
  · rintro (h | h) <;> simp [run_turn, h]

/-- C8 (witness): the end-to-end scenario of the spec — a stubbed reply
carrying [cmd]ls[/cmd] leaves the history with exactly the three
messages user, assistant, synthesized-user. -/
theorem C8_witness :
    (run_turn [] "list files" "Ich liste sie auf. [cmd]ls[/cmd]"
        (fun _ => "datei.txt\n")).1 =
      [⟨"user", "list files"⟩,
       ⟨"assistant", "Ich liste sie auf. [cmd]ls[/cmd]"⟩,
       ⟨"user", "Befehl ausgeführt: ls\nAusgabe: datei.txt\n"⟩] :=
  ((C8_turn_appends [] "list files" "Ich liste sie auf. [cmd]ls[/cmd]"
      (fun _ => "datei.txt\n")).1 "ls" (by decide) (by decide)).trans (by decide)

/-- C10: a reply whose extracted directive is the empty string (for
example [cmd][/cmd], only whitespace between the markers, or the first
end marker lying before the start marker) is treated as no directive:
the turn appends only the user and assistant messages and executes
nothing; more generally every directive the loop does hand to the
executor is non-empty, so the executor's empty-directive branch is
unreachable from the loop. -/
theorem C10_empty_directive (hist : List Message) (user_input reply : String)
    (exec : String → String) :
    (extract_command reply = some "" →
        run_turn hist user_input reply exec =
          (hist ++ [⟨"user", user_input⟩, ⟨"assistant", reply⟩], none)) ∧
    (∀ c, (run_turn hist user_input reply exec).2 = some c → c ≠ "") := by
  constructor
  · intro h
    simp [run_turn, h]
  · intro c h
    rcases hx : extract_command reply with _ | s
    · simp [run_turn, hx] at h
    · by_cases hs : s = ""
      · subst hs
        simp [run_turn, hx] at h
      · simp [run_turn, hx, hs] at h
        exact h ▸ hs

/-- C10 (witness): whitespace-only directive span, nothing executed. -/
theorem C10_witness :
    run_turn [] "mach was" "Hier: [cmd]  [/cmd]" (fun _ => "x") =
      ([⟨"user", "mach was"⟩, ⟨"assistant", "Hier: [cmd]  [/cmd]"⟩], none) :=
  ((C10_empty_directive [] "mach was" "Hier: [cmd]  [/cmd]"
      (fun _ => "x")).1 (by decide)).trans (by decide)

/-- C1 (code bug): on a conversational turn the loop first appends the
user input to the history and get_response then appends the same
user_input once more to the snapshot it sends, so the sequence passed to
the model collaborator ends with the just-entered user message twice,
not exactly once: with an empty prior history and input "hallo", run's
history after the append is [user "hallo"] and the API receives
[user "hallo", user "hallo"]. -/
theorem C1_duplicate_user_message :
    get_response_messages [(⟨"user", "hallo"⟩ : Message)] "hallo" =
      [⟨"user", "hallo"⟩, ⟨"user", "hallo"⟩] ∧
    (run_step [] "hallo" "ts" "iso" "Hallo! Wie kann ich helfen?"
        (fun c => c) none).2 =
      StepAction.turn [⟨"user", "hallo"⟩, ⟨"user", "hallo"⟩] none ∧
    (get_response_messages [(⟨"user", "hallo"⟩ : Message)] "hallo").count
        ⟨"user", "hallo"⟩ = 2 := by
  refine ⟨rfl, rfl, rfl⟩

/-- C3: saving a history of N messages and parsing the resulting
document back reproduces an identical ordered sequence of N messages,
message for message, each role and content carried as the identical
JSON string (Message.toJ); loading that document replaces any prior
history with exactly this sequence and reports no error. -/
theorem C3_save_load_roundtrip (iso : String) (hist : List Message)
    (old : List JMessage) :
    parse_loaded (save_data iso hist) = some (hist.map Message.toJ) ∧
    load_conversation (some (save_data iso hist)) old =
      (hist.map Message.toJ, false) := by
  have h := parse_loaded_save iso hist
  exact ⟨h, by simp [load_conversation, h]⟩

/-- C4 (counterexample): the claim fails as stated.  A document whose
conversation entry is a proper array but whose element carries a
numeric role — lacking the documented role/content shape — is loaded
without any reported error (the Message constructor performs no type
check), and the in-memory history is overwritten. -/
theorem C4_counterexample :
    load_conversation
        (some (Json.obj [("conversation",
            Json.arr [Json.obj [("role", Json.num 5), ("content", Json.str "hi")]])]))
        [⟨Json.str "user", Json.str "alt"⟩] =
      ([⟨Json.num 5, Json.str "hi"⟩], false) ∧
    ([(⟨Json.num 5, Json.str "hi"⟩ : JMessage)] : List JMessage) ≠
      [⟨Json.str "user", Json.str "alt"⟩] := by
  constructor
  · rfl
  · intro h
    injection h with h1 h2
    injection h1 with hr hc
    exact Json.noConfusion hr

/-- C4 (amended): on every load attempt on which the code raises — a
missing file, invalid JSON, or a document on which the message
extraction fails (no subscriptable "conversation" entry, a non-iterable
conversation value, or an element without subscriptable
"role"/"content") — the exception is caught, the in-memory history is
left completely unchanged (the replacement list is built in full before
assignment, so no partial overwrite is possible), and an error is
reported; structurally traversable documents with unexpected value
types, however, load without error and do replace the history. -/
theorem C4_load_failure_preserves_history (fileData : Option Json)
    (hist : List JMessage) (h : fileData.bind parse_loaded = none) :
    load_conversation fileData hist = (hist, true) := by
  rcases fileData with _ | data
  · rfl
  · simp only [Option.some_bind] at h
    simp [load_conversation, h]

/-- C4 (witness): loading a document that is a bare JSON string fails
and keeps the history. -/
theorem C4_witness :
    load_conversation (some (Json.str "kaputt"))
        [⟨Json.str "user", Json.str "hi"⟩] =
      ([⟨Json.str "user", Json.str "hi"⟩], true) :=
  C4_load_failure_preserves_history (some (Json.str "kaputt")) _ rfl

/-- C9: the built-in save input leaves the history exactly as it was —
in particular no message is appended — and emits a file named
conversation_<timestamp>.json (the timestamp drawn from the current
local time through the pattern timestamp_format) whose JSON document
holds the ISO timestamp and the full message sequence, opened with
UTF-8 encoding and dumped indented by two with ensure_ascii disabled,
so non-ASCII characters are preserved literally. -/
theorem C9_save_effects (hist : List Message) (strfNow iso reply : String)
    (exec : String → String) (loadResult : Option (List Message)) :
    run_step hist "save" strfNow iso reply exec loadResult =
      (hist, StepAction.savedFile
        ⟨"conversation_" ++ strfNow ++ ".json",
         Json.obj [("timestamp", Json.str iso),
           ("conversation",
            Json.arr (hist.map (fun m =>
              Json.obj [("role", Json.str m.role), ("content", Json.str m.content)])))],
         false, some 2, "utf-8"⟩) ∧
    timestamp_format = "%Y%m%d_%H%M%S" := by
  exact ⟨rfl, rfl⟩
